import Mathlib

/-!
Verification development for the in-game clock / calendar engine
(`src/calendar.rs` and `src/lib.rs` of the `bevy_ingame_clock` crate).

Modelling conventions (shallow embedding):
* `f64` / `f32` values (`elapsed_seconds`, `speed`, deltas) are embedded as
  exact rationals `ℚ`; floating-point rounding is idealized away, but the
  *shape* of every arithmetic step (floor, remainder, casts) follows the
  Rust source expression by expression.
* Rust `i64 /` and `i64 %` are truncating division and remainder;
  they are embedded as `Int.tdiv` and `Int.tmod`.
* Rust numeric casts are explicit: `as u32` on an `i64` wraps modulo `2^32`
  (`u32OfI64`), `as usize` wraps modulo `2^64` (`usizeOfI64`), while casts
  from floats saturate (`u64SatOfInt`, `u32SatOfInt` applied after `floor`).
* Rust panics (failed `assert!`, integer division by zero, out-of-bounds
  `Vec` indexing) are embedded as `Option.none`.
* Rust `String` is embedded as `List Char`.
-/

/-- Wrapping cast of an `i64` value to `u32` (Rust `as u32`). -/
def u32OfI64 (v : Int) : Nat := (v % (2 ^ 32 : Int)).toNat

/-- Wrapping cast of an `i64` value to `usize` (Rust `as usize` on 64-bit). -/
def usizeOfI64 (v : Int) : Nat := (v % (2 ^ 64 : Int)).toNat

/-- Wrapping cast of an `i64` value to `i32` (Rust `as i32`). -/
def i32OfI64 (v : Int) : Int := (v + 2 ^ 31) % (2 ^ 32 : Int) - 2 ^ 31

/-- Saturating cast of an (already floored) `f64` value to `u64`
(Rust `as u64` from a float saturates; negative values become `0`,
values at or above `2^64` become `u64::MAX`). -/
def u64SatOfInt (v : Int) : Nat := (max 0 (min v (2 ^ 64 - 1))).toNat

/-- Saturating cast of an (already floored) `f64` value to `u32`. -/
def u32SatOfInt (v : Int) : Nat := (max 0 (min v (2 ^ 32 - 1))).toNat

/-- Truncation of a rational toward zero, as an integer: the semantics of
applying Rust `f64` remainder's implicit quotient. -/
def ratTrunc (q : ℚ) : Int := if 0 ≤ q then Rat.floor q else -Rat.floor (-q)

/-- Rust `f64 %` (remainder with the sign of the dividend), idealized over
exact rationals.  For a zero divisor the Rust result would be NaN; the
idealization returns `a` there (no claim exercises a zero divisor). -/
def ratFmod (a b : ℚ) : ℚ := a - b * ((ratTrunc (a / b) : Int) : ℚ)

/-- Decimal character representation of an integer, as produced by Rust
`i32::to_string` (including a leading minus sign for negative values). -/
def intChars (y : Int) : List Char := (toString y).data

/-- Rust `str::replace("#", r)`: every occurrence of the single character
placeholder `#` is replaced by `r`. -/
def replaceHash (s : List Char) (r : List Char) : List Char :=
  s.flatMap (fun c => if c = '#' then r else [c])

/-- Rust `str::replace(pat, rep)` for a non-empty pattern: left-to-right,
non-overlapping replacement of every occurrence.  Fuelled recursion; the
fuel `s.length + 1` always suffices because every step consumes at least
one character of the subject. -/
def replaceAllAux (pat rep : List Char) : Nat → List Char → List Char
  | 0, s => s
  | _ + 1, [] => []
  | fuel + 1, c :: rest =>
    if pat.isPrefixOf (c :: rest) then
      rep ++ replaceAllAux pat rep fuel (List.drop pat.length (c :: rest))
    else
      c :: replaceAllAux pat rep fuel rest

/-- Rust `str::replace(pat, rep)` (see `replaceAllAux`). -/
def replaceAll (s pat rep : List Char) : List Char :=
  replaceAllAux pat rep (s.length + 1) s

/-!
## The leap-year expression evaluator

Modelled from the spec: the crate delegates `is_leap_year` to the external
`evalexpr` crate's `eval_boolean` (not part of this repository's sources).
Per spec §4.1 the grammar is: integer literals (the year placeholder having
already been substituted as a decimal literal, possibly negative),
arithmetic `%`, comparisons `==`, `!=`, `<`, `<=`, `>`, `>=`, boolean
`&&`, `||`, `!` and parentheses, with precedence `!` > `%` > comparisons >
`&&` > `||`.  Any lexing, parsing or type error yields `none` (the
collaborator's `Err`), and `%` follows Rust integer remainder semantics
(`Int.tmod`), erroring on a zero divisor.
-/

/-- Tokens of the leap-year expression grammar. -/
inductive Tok where
  | num (n : Nat)
  | percent
  | eqeq
  | neq
  | ltT
  | leT
  | gtT
  | geT
  | ampamp
  | pipepipe
  | bang
  | lpar
  | rpar
  | dash
deriving DecidableEq

/-- Numeric value of a list of decimal digit characters. -/
def digitsVal (l : List Char) : Nat :=
  l.foldl (fun a c => a * 10 + (c.toNat - 48)) 0

/-- Fuelled lexer for the expression grammar; any unrecognized character is
a lexing error (`none`). -/
def lexChars : Nat → List Char → Option (List Tok)
  | 0, _ => none
  | _ + 1, [] => some []
  | fuel + 1, c :: rest =>
    if c = ' ' then lexChars fuel rest
    else if c.isDigit then
      (lexChars fuel (rest.dropWhile Char.isDigit)).map
        (fun ts => Tok.num (digitsVal (c :: rest.takeWhile Char.isDigit)) :: ts)
    else if c = '%' then (lexChars fuel rest).map (Tok.percent :: ·)
    else if c = '(' then (lexChars fuel rest).map (Tok.lpar :: ·)
    else if c = ')' then (lexChars fuel rest).map (Tok.rpar :: ·)
    else if c = '-' then (lexChars fuel rest).map (Tok.dash :: ·)
    else if c = '=' then
      match rest with
      | '=' :: r2 => (lexChars fuel r2).map (Tok.eqeq :: ·)
      | _ => none
    else if c = '!' then
      match rest with
      | '=' :: r2 => (lexChars fuel r2).map (Tok.neq :: ·)
      | _ => (lexChars fuel rest).map (Tok.bang :: ·)
    else if c = '<' then
      match rest with
      | '=' :: r2 => (lexChars fuel r2).map (Tok.leT :: ·)
      | _ => (lexChars fuel rest).map (Tok.ltT :: ·)
    else if c = '>' then
      match rest with
      | '=' :: r2 => (lexChars fuel r2).map (Tok.geT :: ·)
      | _ => (lexChars fuel rest).map (Tok.gtT :: ·)
    else if c = '&' then
      match rest with
      | '&' :: r2 => (lexChars fuel r2).map (Tok.ampamp :: ·)
      | _ => none
    else if c = '|' then
      match rest with
      | '|' :: r2 => (lexChars fuel r2).map (Tok.pipepipe :: ·)
      | _ => none
    else none

/-- Values of the expression language: integers or booleans. -/
inductive EVal where
  | int (n : Int)
  | bool (b : Bool)
deriving DecidableEq

/-- Left-associative chain of one binary operator over a sub-parser:
after a left operand `v`, consume `op right` pairs while present. -/
def chainOp (sub : List Tok → Option (EVal × List Tok)) (op : Tok)
    (comb : EVal → EVal → Option EVal) :
    Nat → EVal → List Tok → Option (EVal × List Tok)
  | 0, _, _ => none
  | fuel + 1, v, toks =>
    match toks with
    | t :: rest =>
      if t = op then
        match sub rest with
        | some (w, rest') =>
          match comb v w with
          | some u => chainOp sub op comb fuel u rest'
          | none => none
        | none => none
      else some (v, toks)
    | [] => some (v, [])

/-- Integer remainder, Rust semantics, erroring on a zero divisor. -/
def combMod : EVal → EVal → Option EVal
  | .int a, .int b => if b = 0 then none else some (.int (a.tmod b))
  | _, _ => none

/-- Boolean conjunction; type error on non-boolean operands. -/
def combAnd : EVal → EVal → Option EVal
  | .bool a, .bool b => some (.bool (a && b))
  | _, _ => none

/-- Boolean disjunction; type error on non-boolean operands. -/
def combOr : EVal → EVal → Option EVal
  | .bool a, .bool b => some (.bool (a || b))
  | _, _ => none

/-- Is this token a comparison operator? -/
def isCmpTok : Tok → Bool
  | .eqeq | .neq | .ltT | .leT | .gtT | .geT => true
  | _ => false

/-- Evaluate a comparison between two integer values; type error otherwise. -/
def evalCmp : Tok → EVal → EVal → Option EVal
  | .eqeq, .int a, .int b => some (.bool (a == b))
  | .neq, .int a, .int b => some (.bool (a != b))
  | .ltT, .int a, .int b => some (.bool (decide (a < b)))
  | .leT, .int a, .int b => some (.bool (decide (a ≤ b)))
  | .gtT, .int a, .int b => some (.bool (decide (b < a)))
  | .geT, .int a, .int b => some (.bool (decide (b ≤ a)))
  | _, _, _ => none

/-- Fuelled recursive-descent parse-and-evaluate for the §4.1 grammar,
returning the value and the unconsumed tokens.  The fuel only decreases
through parenthesized sub-expressions and operator chains, so any fuel
larger than the token count is sufficient. -/
def parseExprF : Nat → List Tok → Option (EVal × List Tok)
  | 0, _ => none
  | fuel + 1, toks0 =>
    let prim : List Tok → Option (EVal × List Tok) := fun toks =>
      match toks with
      | .lpar :: rest =>
        match parseExprF fuel rest with
        | some (v, .rpar :: r2) => some (v, r2)
        | _ => none
      | .num n :: rest => some (.int (n : Int), rest)
      | .dash :: .num n :: rest => some (.int (-(n : Int)), rest)
      | _ => none
    let unary : List Tok → Option (EVal × List Tok) := fun toks =>
      let nb := (toks.takeWhile (· = Tok.bang)).length
      match prim (toks.dropWhile (· = Tok.bang)) with
      | some (v, rest) =>
        if nb = 0 then some (v, rest)
        else
          match v with
          | .bool b => some (.bool (if nb % 2 = 1 then !b else b), rest)
          | _ => none
      | none => none
    let modChain : List Tok → Option (EVal × List Tok) := fun toks =>
      match unary toks with
      | some (v, rest) => chainOp unary Tok.percent combMod fuel v rest
      | none => none
    let cmp : List Tok → Option (EVal × List Tok) := fun toks =>
      match modChain toks with
      | some (v, rest) =>
        match rest with
        | t :: rest2 =>
          if isCmpTok t then
            match modChain rest2 with
            | some (w, rest3) => (evalCmp t v w).map (fun u => (u, rest3))
            | none => none
          else some (v, rest)
        | [] => some (v, [])
      | none => none
    let andChain : List Tok → Option (EVal × List Tok) := fun toks =>
      match cmp toks with
      | some (v, rest) => chainOp cmp Tok.ampamp combAnd fuel v rest
      | none => none
    match andChain toks0 with
    | some (v, rest) => chainOp andChain Tok.pipepipe combOr fuel v rest
    | none => none

/-- Modelled from the spec: the external `evalexpr::eval_boolean`
collaborator, restricted to the §4.1 grammar.  Lexes and evaluates the
expression; `none` models the collaborator's `Err` (malformed input, type
mismatch, trailing tokens, or a non-boolean result). -/
def eval_boolean (s : List Char) : Option Bool :=
  match lexChars (s.length + 1) s with
  | none => none
  | some toks =>
    match parseExprF (2 * toks.length + 2) toks with
    | some (EVal.bool b, []) => some b
    | _ => none

example : eval_boolean ("1000 % 2 == 0".data) = some true := by rfl
example : eval_boolean ("false".data) = none := by rfl
example : eval_boolean ("invalid expression here".data) = none := by rfl
example :
    eval_boolean (replaceHash ("# % 4 == 0 && (# % 100 != 0 || # % 400 == 0)".data)
      (intChars 1900)) = some false := by rfl
example :
    eval_boolean (replaceHash ("# % 4 == 0 && (# % 100 != 0 || # % 400 == 0)".data)
      (intChars 2000)) = some true := by rfl
example : eval_boolean (replaceHash ("# % 2 == 0".data) (intChars (-2))) = some true := by rfl
example : eval_boolean (replaceHash ("# % 2 == 0".data) (intChars (-1))) = some false := by rfl

/-!
## Calendar data model (`src/calendar.rs`)
-/

/-- A start date/time (`chrono::NaiveDateTime`); the Custom calendar never
reads it, so only its shape matters here. -/
structure NaiveDateTime where
  year : Int
  month : Nat
  day : Nat
  hour : Nat
  minute : Nat
  second : Nat
deriving DecidableEq

/-- Month definition (`calendar.rs` lines 124-131): base days plus the
extra days gained in a leap year. -/
structure Month where
  name : List Char
  days : Nat
  leap_days : Nat
deriving DecidableEq

/-- Epoch definition (`calendar.rs` lines 147-151). -/
structure Epoch where
  name : List Char
  start_year : Int
deriving DecidableEq

/-- Era definition of the `lib.rs` copy of the calendar (lines 152-156);
structurally identical to `Epoch`. -/
structure Era where
  name : List Char
  start_year : Int
deriving DecidableEq

/-- Custom calendar (`calendar.rs` lines 214-232).  All fields are public
in the source, so any inhabitant of this structure is constructible there
(directly or by deserialization); the builder's validation is separate. -/
structure CustomCalendar where
  minutes_per_hour : Nat
  hours_per_day : Nat
  months : List Month
  weekdays : List (List Char)
  leap_years : List Char
  epoch : Epoch
deriving DecidableEq

namespace CustomCalendar

/-- `seconds_per_minute` (`calendar.rs` lines 371-373): fixed at 60. -/
def seconds_per_minute (_c : CustomCalendar) : Nat := 60

/-- `seconds_per_hour` (`calendar.rs` lines 388-390). -/
def seconds_per_hour (c : CustomCalendar) : Nat :=
  c.seconds_per_minute * c.minutes_per_hour

/-- `seconds_per_day` (`calendar.rs` lines 384-386). -/
def seconds_per_day (c : CustomCalendar) : Nat :=
  c.seconds_per_hour * c.hours_per_day

/-- `seconds_per_week` (`calendar.rs` lines 392-394). -/
def seconds_per_week (c : CustomCalendar) : Nat :=
  c.seconds_per_day * c.weekdays.length

/-- `days_per_year` (`calendar.rs` lines 357-359): sum of the base (non
leap) day counts of all months. -/
def days_per_year (c : CustomCalendar) : Nat :=
  (c.months.map Month.days).sum

/-- `is_leap_year` (`calendar.rs` lines 362-369): substitute the year for
`#`, evaluate with `eval_boolean`, and turn any failure into `false`. -/
def is_leap_year (c : CustomCalendar) (year : Int) : Bool :=
  (eval_boolean (replaceHash c.leap_years (intChars year))).getD false

/-- The `total_days` computation shared by `get_date` (line 397) and
`get_weekday` (line 377): `(elapsed_seconds / seconds_per_day as f64)
.floor() as i64`. -/
def total_days (c : CustomCalendar) (elapsed_seconds : ℚ) : Int :=
  Rat.floor (elapsed_seconds / (c.seconds_per_day : ℚ))

/-- The month-finding loop of `get_date` (`calendar.rs` lines 404-422):
starting from `month = 1`, walk the months; on the first month whose
(leap-adjusted) length exceeds the remaining days, set
`month = (idx + 1) as u32` and stop; if the loop exhausts the list,
`month` keeps its initial value `1`. -/
def find_month (len_of : Month → Nat) : List Month → Nat → Nat → Nat × Nat
  | [], _, days_remaining => (1, days_remaining)
  | m :: ms, idx, days_remaining =>
    if days_remaining < len_of m then ((idx + 1) % 2 ^ 32, days_remaining)
    else find_month len_of ms (idx + 1) (days_remaining - len_of m)

/-- Body of `get_date` (`calendar.rs` lines 396-427) after the
`total_days` floor has been taken.  `none` models the `i64` division
panic when `days_per_year` is zero.  `day_of_year` is
`(total_days % days_per_year) as u32` — truncating remainder then a
wrapping cast — and the final `year` is returned `as i32`. -/
def get_date_from (c : CustomCalendar) (td : Int) : Option (Int × Nat × Nat) :=
  let days_per_year : Int := (c.days_per_year : Int)
  if days_per_year = 0 then none
  else
    let years_since_epoch := td.tdiv days_per_year
    let year := c.epoch.start_year + years_since_epoch
    let day_of_year : Nat := u32OfI64 (td.tmod days_per_year)
    let is_leap := c.is_leap_year (i32OfI64 year)
    let r := find_month (fun m => m.days + (if is_leap then m.leap_days else 0))
      c.months 0 day_of_year
    some (i32OfI64 year, r.1, (r.2 + 1) % 2 ^ 32)

/-- `get_date` (`calendar.rs` lines 396-427).  The `start_datetime`
parameter is ignored by the source (`_start_datetime`). -/
def get_date (c : CustomCalendar) (elapsed_seconds : ℚ)
    (_start_datetime : NaiveDateTime) : Option (Int × Nat × Nat) :=
  get_date_from c (c.total_days elapsed_seconds)

/-- `get_time` (`calendar.rs` lines 429-442): decompose
`elapsed_seconds % seconds_per_day` into hour / minute / second with `f64`
remainders and `floor() as u32` casts.  The `start_datetime` parameter is
ignored by the source. -/
def get_time (c : CustomCalendar) (elapsed_seconds : ℚ)
    (_start_datetime : NaiveDateTime) : Nat × Nat × Nat :=
  let seconds_per_day : ℚ := (c.seconds_per_day : ℚ)
  let seconds_today := ratFmod elapsed_seconds seconds_per_day
  let seconds_per_hour : ℚ := (c.seconds_per_hour : ℚ)
  let seconds_per_minute : ℚ := (c.seconds_per_minute : ℚ)
  let hour := u32SatOfInt (Rat.floor (seconds_today / seconds_per_hour))
  let remaining := ratFmod seconds_today seconds_per_hour
  let minute := u32SatOfInt (Rat.floor (remaining / seconds_per_minute))
  let second := u32SatOfInt (Rat.floor (ratFmod remaining seconds_per_minute))
  (hour, minute, second)

/-- `get_weekday` (`calendar.rs` lines 376-380):
`weekdays[(total_days % weekdays.len() as i64) as usize]`.  `none` models
the `% 0` panic for an empty weekday list and the indexing panic when the
wrapped index (negative `total_days`) is out of bounds. -/
def get_weekday (c : CustomCalendar) (elapsed_seconds : ℚ) : Option (List Char) :=
  if c.weekdays.length = 0 then none
  else c.weekdays.get?
    (usizeOfI64 ((c.total_days elapsed_seconds).tmod (c.weekdays.length : Int)))

/-- Zero-padded two-digit rendering (Rust `format!("\x7b:02\x7d", n)`). -/
def natPad2 (n : Nat) : List Char :=
  if n < 10 then '0' :: (toString n).data else (toString n).data

/-- Zero-padded four-digit rendering of a year
(Rust `format!("\x7b:04\x7d", y)`; the sign occupies one width unit). -/
def intPad4 (y : Int) : List Char :=
  if y < 0 then
    '-' :: List.replicate (3 - (toString (-y)).data.length) '0' ++ (toString (-y)).data
  else
    List.replicate (4 - (toString y).data.length) '0' ++ (toString y).data

/-- `format_date` (`calendar.rs` lines 444-459).  The source first calls
`get_date` and `get_weekday` (either may panic), then for a custom
template builds the chained `replace` calls; the `%B` replacement argument
`self.months[(month - 1) as usize].name` is evaluated unconditionally and
without a bounds check, modelled by `List.get?` with `none` as the panic. -/
def format_date (c : CustomCalendar) (elapsed_seconds : ℚ)
    (start_datetime : NaiveDateTime) (format : Option (List Char)) :
    Option (List Char) :=
  match c.get_date elapsed_seconds start_datetime with
  | none => none
  | some (year, month, day) =>
    match c.get_weekday elapsed_seconds with
    | none => none
    | some weekday =>
      match format with
      | some fmt =>
        match c.months.get? (month - 1) with
        | none => none
        | some monthDef =>
          some (replaceAll (replaceAll (replaceAll (replaceAll (replaceAll
            (replaceAll fmt ("%Y".data) (intChars year))
            ("%m".data) (natPad2 month))
            ("%d".data) (natPad2 day))
            ("%B".data) monthDef.name)
            ("%E".data) c.epoch.name)
            ("%A".data) weekday)
      | none =>
        some (intPad4 year ++ '-' :: natPad2 month ++ '-' :: natPad2 day)

/-- `format_time` (`calendar.rs` lines 461-471). -/
def format_time (c : CustomCalendar) (elapsed_seconds : ℚ)
    (start_datetime : NaiveDateTime) (format : Option (List Char)) : List Char :=
  let r := c.get_time elapsed_seconds start_datetime
  match format with
  | some fmt =>
    replaceAll (replaceAll (replaceAll fmt
      ("%H".data) (natPad2 r.1))
      ("%M".data) (natPad2 r.2.1))
      ("%S".data) (natPad2 r.2.2)
  | none =>
    natPad2 r.1 ++ ':' :: natPad2 r.2.1 ++ ':' :: natPad2 r.2.2

end CustomCalendar

/-- Builder for a custom calendar (`calendar.rs` lines 240-248). -/
structure CustomCalendarBuilder where
  minutes_per_hour : Option Nat
  hours_per_day : Option Nat
  months : List Month
  weekdays : List (List Char)
  leap_years : Option (List Char)
  epoch : Option Epoch

/-- Default leap year rule (`calendar.rs` lines 163-165). -/
def default_leap_years : List Char := "false".data

/-- Default epoch (`calendar.rs` lines 168-170). -/
def default_epoch : Epoch := ⟨"Common Epoch".data, 1⟩

/-- `CustomCalendarBuilder::build` (`calendar.rs` lines 314-332): fill in
defaults, then `assert!` that months and weekdays are both non-empty;
`none` models the assertion panic. -/
def CustomCalendarBuilder.build (b : CustomCalendarBuilder) :
    Option CustomCalendar :=
  if b.months ≠ [] ∧ b.weekdays ≠ [] then
    some ⟨b.minutes_per_hour.getD 60, b.hours_per_day.getD 24,
      b.months, b.weekdays, b.leap_years.getD default_leap_years,
      b.epoch.getD default_epoch⟩
  else none

namespace LibRs

/-- The `lib.rs` copy of the custom calendar (lines 221-245), which keys
the weekday list against a separate `days_per_week` field. -/
structure CustomCalendar where
  minutes_per_hour : Nat
  hours_per_day : Nat
  days_per_week : Nat
  months : List Month
  weekday_names : List (List Char)
  leap_years : List Char
  era : Era
deriving DecidableEq

/-- `CustomCalendar::new` (`lib.rs` lines 250-271): asserts
`weekday_names.len() == days_per_week` and `!months.is_empty()`; `none`
models either assertion panic.  It does not require the weekday list to
be non-empty. -/
def CustomCalendar.new (minutes_per_hour hours_per_day days_per_week : Nat)
    (months : List Month) (weekday_names : List (List Char))
    (leap_years : List Char) (era : Era) : Option CustomCalendar :=
  if weekday_names.length = days_per_week ∧ months ≠ [] then
    some ⟨minutes_per_hour, hours_per_day, days_per_week, months,
      weekday_names, leap_years, era⟩
  else none

end LibRs

/-!
## Clock and interval machinery (`src/lib.rs`)
-/

/-- The `Calendar` trait objects that can be installed on the clock: the
chrono-backed `GregorianCalendar` (which keeps every trait default) or a
`CustomCalendar` (whose overrides are in `calendar.rs`).  Represented as a
closed variant, following the trait's closed set of implementations. -/
inductive CalendarModel where
  | gregorian
  | custom (c : CustomCalendar)

/-- Trait dispatch for `seconds_per_day` (`lib.rs` lines 50-52 default,
overridden by `CustomCalendar`). -/
def CalendarModel.seconds_per_day : CalendarModel → Nat
  | .gregorian => 86400
  | .custom c => c.seconds_per_day

/-- Trait dispatch for `seconds_per_hour` (`lib.rs` lines 59-61 default). -/
def CalendarModel.seconds_per_hour : CalendarModel → Nat
  | .gregorian => 3600
  | .custom c => c.seconds_per_hour

/-- Trait dispatch for `seconds_per_week` (`lib.rs` lines 68-70 default:
`seconds_per_day * 7`, overridden by `CustomCalendar` to use the weekday
count). -/
def CalendarModel.seconds_per_week : CalendarModel → Nat
  | .gregorian => 86400 * 7
  | .custom c => c.seconds_per_week

/-- Interval kinds (`lib.rs` lines 423-437). -/
inductive ClockInterval where
  | second
  | minute
  | hour
  | day
  | week
  | custom (seconds : Nat)
deriving DecidableEq

/-- `ClockInterval::as_seconds` (`lib.rs` lines 441-450). -/
def ClockInterval.as_seconds (i : ClockInterval) (calendar : CalendarModel) : Nat :=
  match i with
  | .second => 1
  | .minute => 60
  | .hour => calendar.seconds_per_hour
  | .day => calendar.seconds_per_day
  | .week => calendar.seconds_per_week
  | .custom seconds => seconds

/-- The `InGameClock` resource (`lib.rs` lines 484-495). -/
structure InGameClock where
  elapsed_seconds : ℚ
  speed : ℚ
  paused : Bool
  start_datetime : NaiveDateTime
  calendar : CalendarModel

/-- `update_clock` (`lib.rs` lines 733-737): while not paused,
`elapsed_seconds += delta * speed`. -/
def update_clock (clock : InGameClock) (delta : ℚ) : InGameClock :=
  if clock.paused then clock
  else { clock with elapsed_seconds := clock.elapsed_seconds + delta * clock.speed }

/-- `set_day_duration` (`lib.rs` lines 644-647):
`speed = calendar.seconds_per_day() / real_seconds_per_day`. -/
def set_day_duration (clock : InGameClock) (real_seconds_per_day : ℚ) : InGameClock :=
  { clock with speed := (clock.calendar.seconds_per_day : ℚ) / real_seconds_per_day }

/-- `day_duration` (`lib.rs` lines 651-654):
`calendar.seconds_per_day() / speed`. -/
def day_duration (clock : InGameClock) : ℚ :=
  (clock.calendar.seconds_per_day : ℚ) / clock.speed

/-- Per-interval bookkeeping (`lib.rs` lines 474-478). -/
structure IntervalTracker where
  interval : ClockInterval
  last_trigger_seconds : ℚ
  count : Nat
deriving DecidableEq

/-- Event payload (`lib.rs` lines 415-420). -/
structure ClockIntervalEvent where
  interval : ClockInterval
  count : Nat
deriving DecidableEq

/-- `InGameClock::register_interval` (`lib.rs` lines 542-553): append a
fresh tracker (`last_trigger_seconds = 0`, `count = 0`) unless a tracker
with the same interval already exists. -/
def register_interval (trackers : List IntervalTracker) (interval : ClockInterval) :
    List IntervalTracker :=
  if trackers.any (fun t => t.interval == interval) then trackers
  else trackers ++ [⟨interval, 0, 0⟩]

/-- The `(elapsed / interval_seconds).floor() as u64` computation of
`check_intervals` (`lib.rs` lines 753-754): `f64` division (infinite for a
zero divisor) then a floor and a saturating cast. -/
def intervalsCount (x : ℚ) (p : Nat) : Nat :=
  if p = 0 then (if 0 < x then 2 ^ 64 - 1 else 0)
  else u64SatOfInt (Rat.floor (x / (p : ℚ)))

/-- The event loop of `check_intervals` (`lib.rs` lines 757-763):
`for _ in previous..current` increment the tracker count and emit an event
carrying the cumulative count.  Returns the final count and the emitted
events in order. -/
def fire_events (interval : ClockInterval) (count : Nat) :
    Nat → Nat × List ClockIntervalEvent
  | 0 => (count, [])
  | n + 1 =>
    let c := count + 1
    let r := fire_events interval c n
    (r.1, ⟨interval, c⟩ :: r.2)

/-- The per-tracker body of `check_intervals` (`lib.rs` lines 749-766):
compute the crossing counts, fire the catch-up events, then set
`last_trigger_seconds = elapsed`. -/
def check_tracker (calendar : CalendarModel) (elapsed : ℚ) (t : IntervalTracker) :
    IntervalTracker × List ClockIntervalEvent :=
  let interval_seconds := t.interval.as_seconds calendar
  let current_intervals := intervalsCount elapsed interval_seconds
  let previous_intervals := intervalsCount t.last_trigger_seconds interval_seconds
  let r := fire_events t.interval t.count (current_intervals - previous_intervals)
  (⟨t.interval, elapsed, r.1⟩, r.2)

/-- `check_intervals` (`lib.rs` lines 740-767): return immediately while
paused (trackers untouched, no events); otherwise process every tracker in
order, collecting the written events. -/
def check_intervals (clock : InGameClock) (trackers : List IntervalTracker) :
    List IntervalTracker × List ClockIntervalEvent :=
  if clock.paused then (trackers, [])
  else
    let rs := trackers.map (check_tracker clock.calendar clock.elapsed_seconds)
    (rs.map Prod.fst, rs.flatMap Prod.snd)

/-!
## Concrete fixtures used by witnesses and counterexamples
-/

/-- An arbitrary start moment (the Custom calendar never reads it). -/
def startDT : NaiveDateTime := ⟨2024, 1, 1, 0, 0, 0⟩

/-- The fantasy calendar of the crate's own tests
(`test_fantasy_calendar_date_calculation`): 20 minutes per hour, 8 hours
per day, three months of 20+3 / 21+0 / 19+2 days, five weekdays, leap rule
`# % 2 == 0`, epoch year 1000.  Its day is 9600 seconds and its normal
year 60 days. -/
def fantasyCalendar : CustomCalendar :=
  ⟨20, 8,
   [⟨"Frostmoon".data, 20, 3⟩, ⟨"Thawmoon".data, 21, 0⟩, ⟨"Bloomtide".data, 19, 2⟩],
   ["Moonday".data, "Fireday".data, "Waterday".data, "Earthday".data, "Starday".data],
   "# % 2 == 0".data, ⟨"Age of Magic".data, 1000⟩⟩

/-- The calendar of the crate's `test_expression_invalid_returns_false`
test: its leap-year expression does not lex. -/
def malformedCalendar : CustomCalendar :=
  ⟨60, 24, [⟨"Month1".data, 30, 1⟩],
   ["Mon".data, "Tue".data, "Wed".data, "Thu".data, "Fri".data, "Sat".data, "Sun".data],
   "invalid expression here".data, ⟨"Test Epoch".data, 0⟩⟩

/-- A custom calendar with an empty months list.  All fields of the Rust
struct are public, so this value is constructible directly and through
deserialization (the builder's validation is bypassed). -/
def emptyMonthsCalendar : CustomCalendar :=
  ⟨60, 24, [], ["Mon".data], "false".data, ⟨"CE".data, 0⟩⟩

/-- A paused clock fixture. -/
def pausedClock : InGameClock := ⟨100, 2, true, startDT, .gregorian⟩

/-- A running clock fixture. -/
def runningClock : InGameClock := ⟨100, 2, false, startDT, .gregorian⟩

/-- A running clock fixture at speed 1. -/
def gregClock : InGameClock := ⟨0, 1, false, startDT, .gregorian⟩

/-- A running clock whose elapsed time has jumped to 350 simulated
seconds. -/
def catchupClock : InGameClock := ⟨350, 1, false, startDT, .gregorian⟩

/-- A 100-second custom interval tracker last serviced at 50 seconds. -/
def catchupTracker : IntervalTracker := ⟨.custom 100, 50, 0⟩

/-!
## Helper lemmas
-/

/-- `Rat.floor` agrees with the `FloorRing` floor on `ℚ`. -/
lemma ratFloor_eq_intFloor (q : ℚ) : Rat.floor q = ⌊q⌋ := by
  rw [Rat.floor_def' q, Rat.floor_def]

/-- When the floored quotient is representable, the saturating `u64` cast
of `check_intervals` is exact. -/
lemma intervalsCount_eq_floor (x : ℚ) (p : Nat) (hp : p ≠ 0)
    (hx : 0 ≤ Rat.floor (x / (p : ℚ))) (hfit : Rat.floor (x / (p : ℚ)) < 2 ^ 64) :
    intervalsCount x p = (Rat.floor (x / (p : ℚ))).toNat := by
  unfold intervalsCount u64SatOfInt
  rw [if_neg hp, min_eq_left (by omega), max_eq_right (by omega)]

/-- Closed form of the event loop: `n` crossings starting from cumulative
count `count` produce the consecutive counts `count+1, …, count+n`. -/
lemma fire_events_eq (interval : ClockInterval) (count n : Nat) :
    fire_events interval count n
      = (count + n, (List.range n).map (fun k => ⟨interval, count + k + 1⟩)) := by
  induction n generalizing count with
  | zero => simp [fire_events]
  | succ m ih =>
    simp only [fire_events, ih, List.range_succ_eq_map, List.map_cons, List.map_map]
    refine congrArg₂ Prod.mk (by omega) ?_
    refine congrArg₂ List.cons (by simp) ?_
    refine List.map_congr_left ?_
    intro k _
    simp [Function.comp]
    omega

/-!
## Claim theorems
-/

/-- C10: the Custom calendar's `get_date` and `get_time` ignore the
start-moment argument entirely: for any two start datetimes the results
coincide; the output depends only on the elapsed seconds and the calendar
configuration. -/
theorem c10_start_datetime_ignored (c : CustomCalendar) (elapsed : ℚ)
    (s1 s2 : NaiveDateTime) :
    c.get_date elapsed s1 = c.get_date elapsed s2
    ∧ c.get_time elapsed s1 = c.get_time elapsed s2 :=
  ⟨rfl, rfl⟩

/-- C4: while paused, the per-tick advance is a no-op on the whole clock
state; while running it adds exactly `delta * speed` to `elapsed_seconds`
and leaves every other field (speed, paused, start moment, calendar)
unchanged. -/
theorem c4_update_clock_advance (clock : InGameClock) (delta : ℚ) :
    (clock.paused = true → update_clock clock delta = clock)
    ∧ (clock.paused = false →
        (update_clock clock delta).elapsed_seconds
            = clock.elapsed_seconds + delta * clock.speed
        ∧ (update_clock clock delta).speed = clock.speed
        ∧ (update_clock clock delta).paused = clock.paused
        ∧ (update_clock clock delta).start_datetime = clock.start_datetime
        ∧ (update_clock clock delta).calendar = clock.calendar) := by
  constructor
  · intro h
    simp [update_clock, h]
  · intro h
    simp [update_clock, h]

/-- Witness for C4 at concrete clocks: a paused clock is untouched, a
running clock advances by `delta * speed`. -/
theorem c4_update_clock_advance_witness :
    update_clock pausedClock 5 = pausedClock
    ∧ (update_clock runningClock 5).elapsed_seconds
        = runningClock.elapsed_seconds + 5 * runningClock.speed :=
  ⟨(c4_update_clock_advance pausedClock 5).1 rfl,
   ((c4_update_clock_advance runningClock 5).2 rfl).1⟩

/-- C3: while the clock is paused, `check_intervals` is skipped entirely:
every tracker (its last-seen value and crossing count) is returned
unchanged and no event is emitted, regardless of the elapsed value. -/
theorem c3_paused_skips_interval_check (clock : InGameClock)
    (trackers : List IntervalTracker) (h : clock.paused = true) :
    check_intervals clock trackers = (trackers, []) := by
  simp [check_intervals, h]

/-- Witness for C3: a paused clock with advanced elapsed time services no
tracker and emits nothing. -/
theorem c3_paused_skips_interval_check_witness :
    check_intervals pausedClock [⟨ClockInterval.day, 0, 0⟩]
      = ([⟨ClockInterval.day, 0, 0⟩], []) :=
  c3_paused_skips_interval_check pausedClock [⟨ClockInterval.day, 0, 0⟩] rfl

/-- C6: leap-year evaluation is total and fail-soft.  Whenever the
expression evaluation fails, `is_leap_year` returns `false` rather than
propagating the error; in particular a malformed expression yields `false`
for every input year. -/
theorem c6_leap_eval_fail_soft :
    (∀ (c : CustomCalendar) (y : Int),
        eval_boolean (replaceHash c.leap_years (intChars y)) = none →
          c.is_leap_year y = false)
    ∧ ∀ y : Int, malformedCalendar.is_leap_year y = false := by
  constructor
  · intro c y h
    unfold CustomCalendar.is_leap_year
    rw [h]
    rfl
  · intro y
    show (eval_boolean (replaceHash malformedCalendar.leap_years (intChars y))).getD false
        = false
    have hrep : replaceHash malformedCalendar.leap_years (intChars y)
        = malformedCalendar.leap_years := rfl
    rw [hrep]
    rfl

/-- Witness for C6 at concrete years (the years of the crate's own
`test_expression_invalid_returns_false`). -/
theorem c6_leap_eval_fail_soft_witness :
    malformedCalendar.is_leap_year 2000 = false
    ∧ malformedCalendar.is_leap_year 2004 = false :=
  ⟨c6_leap_eval_fail_soft.1 malformedCalendar 2000 (by rfl),
   c6_leap_eval_fail_soft.2 2004⟩

/-- C8: interval registration is idempotent per distinct kind value:
registering an already-present kind is a no-op, a fresh kind appends a
tracker with last-seen 0 and count 0, and `Custom(30)` / `Custom(60)`
produce two distinct trackers. -/
theorem c8_register_interval_idempotent (ts : List IntervalTracker)
    (i : ClockInterval) :
    register_interval (register_interval ts i) i = register_interval ts i
    ∧ ((∃ t ∈ ts, t.interval = i) → register_interval ts i = ts)
    ∧ ((∀ t ∈ ts, t.interval ≠ i) → register_interval ts i = ts ++ [⟨i, 0, 0⟩])
    ∧ register_interval (register_interval [] (ClockInterval.custom 30))
        (ClockInterval.custom 60)
      = [⟨ClockInterval.custom 30, 0, 0⟩, ⟨ClockInterval.custom 60, 0, 0⟩] := by
  refine ⟨?_, ?_, ?_, by decide⟩
  · by_cases h : ts.any (fun t => t.interval == i)
    · simp [register_interval, h]
    · simp only [register_interval, h, Bool.false_eq_true, if_neg, if_false]
      simp [List.any_append]
  · rintro ⟨t, ht, hti⟩
    have h : ts.any (fun t => t.interval == i) = true :=
      List.any_eq_true.mpr ⟨t, ht, by simp [hti]⟩
    simp [register_interval, h]
  · intro h
    have ha : ts.any (fun t => t.interval == i) = false := by
      rw [List.any_eq_false]
      intro t ht
      simpa using h t ht
    simp [register_interval, ha]

/-- Witness for C8: with one `Custom(30)` tracker present, re-registering
`Custom(30)` is a no-op and registering `Custom(60)` appends a fresh
tracker. -/
theorem c8_register_interval_idempotent_witness :
    register_interval [⟨ClockInterval.custom 30, 0, 0⟩] (ClockInterval.custom 30)
      = [⟨ClockInterval.custom 30, 0, 0⟩]
    ∧ register_interval [⟨ClockInterval.custom 30, 0, 0⟩] (ClockInterval.custom 60)
      = [⟨ClockInterval.custom 30, 0, 0⟩, ⟨ClockInterval.custom 60, 0, 0⟩] :=
  ⟨(c8_register_interval_idempotent [⟨ClockInterval.custom 30, 0, 0⟩]
      (ClockInterval.custom 30)).2.1 (by decide),
   (c8_register_interval_idempotent [⟨ClockInterval.custom 30, 0, 0⟩]
      (ClockInterval.custom 60)).2.2.1 (by decide)⟩

/-- C7 (amended): `CustomCalendarBuilder::build` fails exactly when the
months list or the weekdays list is empty; the `lib.rs`
`CustomCalendar::new` constructor instead fails exactly when the months
list is empty or the weekday count differs from `days_per_week`, so it
accepts an empty weekday list whenever `days_per_week = 0`. -/
theorem c7_construction_validation :
    (∀ b : CustomCalendarBuilder,
        (b.build).isSome = true ↔ (b.months ≠ [] ∧ b.weekdays ≠ []))
    ∧ ∀ (mph hpd dpw : Nat) (months : List Month) (wnames : List (List Char))
        (ly : List Char) (era : Era),
        (LibRs.CustomCalendar.new mph hpd dpw months wnames ly era).isSome = true ↔
          (wnames.length = dpw ∧ months ≠ []) := by
  constructor
  · intro b
    unfold CustomCalendarBuilder.build
    split <;> simp_all
  · intro mph hpd dpw months wnames ly era
    unfold LibRs.CustomCalendar.new
    split <;> simp_all

/-- Counterexample for C7 as stated: `CustomCalendar::new` in `lib.rs`
succeeds on an empty weekday list (with `days_per_week = 0`), so
construction does not fail fatally exactly when a list is empty. -/
theorem c7_new_accepts_empty_weekdays :
    (LibRs.CustomCalendar.new 60 24 0 [⟨"Month1".data, 30, 0⟩] []
      ("false".data) ⟨"Test Era".data, 0⟩).isSome = true := by
  rfl

/-- C9: `set_day_duration` derives the speed from the active calendar's
day length (not a fixed 86400), `day_duration` is its inverse, and on a
Gregorian-calendar clock `set_day_duration 60` gives speed 1440 and a
round-tripped day duration of 60. -/
theorem c9_day_duration_roundtrip (clock : InGameClock) (d : ℚ)
    (hspd : (clock.calendar.seconds_per_day : ℚ) ≠ 0) :
    (set_day_duration clock d).speed = (clock.calendar.seconds_per_day : ℚ) / d
    ∧ day_duration (set_day_duration clock d) = d
    ∧ day_duration clock = (clock.calendar.seconds_per_day : ℚ) / clock.speed
    ∧ (clock.calendar = CalendarModel.gregorian →
        (set_day_duration clock 60).speed = 1440
        ∧ day_duration (set_day_duration clock 60) = 60) := by
  have hround : ∀ d' : ℚ, day_duration (set_day_duration clock d') = d' := by
    intro d'
    show (clock.calendar.seconds_per_day : ℚ)
        / ((clock.calendar.seconds_per_day : ℚ) / d') = d'
    rcases eq_or_ne d' 0 with rfl | hd
    · simp
    · field_simp
  refine ⟨rfl, hround d, rfl, fun hg => ⟨?_, hround 60⟩⟩
  show (clock.calendar.seconds_per_day : ℚ) / 60 = 1440
  rw [hg]
  norm_num [CalendarModel.seconds_per_day]

/-- Witness for C9 on a concrete Gregorian clock. -/
theorem c9_day_duration_roundtrip_witness :
    (set_day_duration gregClock 60).speed = 1440
    ∧ day_duration (set_day_duration gregClock 60) = 60 :=
  (c9_day_duration_roundtrip gregClock 60
    (by norm_num [CalendarModel.seconds_per_day, gregClock])).2.2.2 rfl

/-- C1: divergence of `get_date` from the specified floor semantics on
negative elapsed time.  One day before the epoch (`total_days = -1`) the
source's truncating `i64` division gives `years_since_epoch = 0` (the
spec's floor gives `-1`, year 999) and the `(total_days % days_per_year)
as u32` cast wraps `-1` to `4294967295` instead of the non-negative
residue 59, so the returned date is year 1000, month 1, day 4294967231. -/
theorem c1_get_date_truncation_divergence :
    fantasyCalendar.get_date (-9600) startDT = some (1000, 1, 4294967231)
    ∧ fantasyCalendar.total_days (-9600) = -1
    ∧ Int.tdiv (-1) (fantasyCalendar.days_per_year : Int) = 0
    ∧ Int.tmod (-1) (fantasyCalendar.days_per_year : Int) = -1 := by
  have h : fantasyCalendar.total_days (-9600) = -1 := by
    unfold CustomCalendar.total_days
    norm_num [CustomCalendar.seconds_per_day, CustomCalendar.seconds_per_hour,
      CustomCalendar.seconds_per_minute, fantasyCalendar]
    decide
  refine ⟨?_, h, by decide, by decide⟩
  rw [CustomCalendar.get_date, h]
  rfl

/-- C2: a single unpaused check invocation on a registered tracker with
last-seen time `L` and current elapsed `E ≥ L ≥ 0` emits exactly
`⌊E/period⌋ - ⌊L/period⌋` notifications; the cumulative `count` is
incremented once per notification, each event carries the cumulative
total, the emitted counts are the consecutive values
`count+1, …, count+n`, and afterwards the tracker's last-seen time is
`E`. -/
theorem c2_check_intervals_catchup (clock : InGameClock) (t : IntervalTracker)
    (hpaused : clock.paused = false)
    (hp : t.interval.as_seconds clock.calendar ≠ 0)
    (hL : 0 ≤ t.last_trigger_seconds)
    (hLE : t.last_trigger_seconds ≤ clock.elapsed_seconds)
    (hfit : Rat.floor (clock.elapsed_seconds
        / (t.interval.as_seconds clock.calendar : ℚ)) < 2 ^ 64) :
    check_intervals clock [t]
      = ([⟨t.interval, clock.elapsed_seconds,
            t.count + (Rat.floor (clock.elapsed_seconds
                / (t.interval.as_seconds clock.calendar : ℚ))
              - Rat.floor (t.last_trigger_seconds
                / (t.interval.as_seconds clock.calendar : ℚ))).toNat⟩],
         (List.range ((Rat.floor (clock.elapsed_seconds
                / (t.interval.as_seconds clock.calendar : ℚ))
              - Rat.floor (t.last_trigger_seconds
                / (t.interval.as_seconds clock.calendar : ℚ))).toNat)).map
           (fun k => ⟨t.interval, t.count + k + 1⟩))
    ∧ (((check_intervals clock [t]).2.length : Int)
        = Rat.floor (clock.elapsed_seconds
            / (t.interval.as_seconds clock.calendar : ℚ))
          - Rat.floor (t.last_trigger_seconds
            / (t.interval.as_seconds clock.calendar : ℚ))) := by
  have hp0 : (0 : ℚ) < (t.interval.as_seconds clock.calendar : ℚ) := by
    exact_mod_cast Nat.pos_of_ne_zero hp
  have hdivle : t.last_trigger_seconds / (t.interval.as_seconds clock.calendar : ℚ)
      ≤ clock.elapsed_seconds / (t.interval.as_seconds clock.calendar : ℚ) := by
    gcongr
  have hfl : Rat.floor (t.last_trigger_seconds
        / (t.interval.as_seconds clock.calendar : ℚ))
      ≤ Rat.floor (clock.elapsed_seconds
        / (t.interval.as_seconds clock.calendar : ℚ)) := by
    rw [ratFloor_eq_intFloor, ratFloor_eq_intFloor]
    exact Int.floor_mono hdivle
  have hL0 : 0 ≤ Rat.floor (t.last_trigger_seconds
      / (t.interval.as_seconds clock.calendar : ℚ)) := by
    rw [ratFloor_eq_intFloor]
    exact Int.floor_nonneg.mpr (div_nonneg hL hp0.le)
  have hE0 : 0 ≤ Rat.floor (clock.elapsed_seconds
      / (t.interval.as_seconds clock.calendar : ℚ)) := le_trans hL0 hfl
  have hfitL : Rat.floor (t.last_trigger_seconds
      / (t.interval.as_seconds clock.calendar : ℚ)) < 2 ^ 64 :=
    lt_of_le_of_lt hfl hfit
  have hcur := intervalsCount_eq_floor clock.elapsed_seconds
    (t.interval.as_seconds clock.calendar) hp hE0 hfit
  have hprev := intervalsCount_eq_floor t.last_trigger_seconds
    (t.interval.as_seconds clock.calendar) hp hL0 hfitL
  have hsub : (Rat.floor (clock.elapsed_seconds
          / (t.interval.as_seconds clock.calendar : ℚ))).toNat
        - (Rat.floor (t.last_trigger_seconds
          / (t.interval.as_seconds clock.calendar : ℚ))).toNat
      = (Rat.floor (clock.elapsed_seconds
          / (t.interval.as_seconds clock.calendar : ℚ))
        - Rat.floor (t.last_trigger_seconds
          / (t.interval.as_seconds clock.calendar : ℚ))).toNat := by
    omega
  have key : check_intervals clock [t]
      = ([⟨t.interval, clock.elapsed_seconds,
            t.count + (Rat.floor (clock.elapsed_seconds
                / (t.interval.as_seconds clock.calendar : ℚ))
              - Rat.floor (t.last_trigger_seconds
                / (t.interval.as_seconds clock.calendar : ℚ))).toNat⟩],
         (List.range ((Rat.floor (clock.elapsed_seconds
                / (t.interval.as_seconds clock.calendar : ℚ))
              - Rat.floor (t.last_trigger_seconds
                / (t.interval.as_seconds clock.calendar : ℚ))).toNat)).map
           (fun k => ⟨t.interval, t.count + k + 1⟩)) := by
    unfold check_intervals
    rw [hpaused]
    simp only [Bool.false_eq_true, if_false, List.map_cons, List.map_nil,
      List.flatMap_cons, List.flatMap_nil, List.append_nil]
    unfold check_tracker
    dsimp only
    rw [hcur, hprev, hsub, fire_events_eq]
  exact ⟨key, by rw [key]; simp; omega⟩

/-- Witness for C2: jumping from last-seen 50 to elapsed 350 on a
100-second interval crosses three periods in one tick and emits exactly
three notifications with the consecutive cumulative counts 1, 2, 3, after
which the tracker's last-seen time is 350. -/
theorem c2_check_intervals_catchup_witness :
    check_intervals catchupClock [catchupTracker]
      = ([⟨ClockInterval.custom 100, 350, 3⟩],
         [⟨ClockInterval.custom 100, 1⟩, ⟨ClockInterval.custom 100, 2⟩,
          ⟨ClockInterval.custom 100, 3⟩]) := by
  have hE : Rat.floor (catchupClock.elapsed_seconds
      / ((catchupTracker.interval.as_seconds catchupClock.calendar : Nat) : ℚ)) = 3 := by
    show Rat.floor (((350 : ℚ)) / ((100 : Nat) : ℚ)) = 3
    rw [ratFloor_eq_intFloor]
    rw [show ((350 : ℚ)) = (((350 : Int) : ℚ)) by norm_num,
      Rat.floor_intCast_div_natCast]
    decide
  have hLf : Rat.floor (catchupTracker.last_trigger_seconds
      / ((catchupTracker.interval.as_seconds catchupClock.calendar : Nat) : ℚ)) = 0 := by
    show Rat.floor (((50 : ℚ)) / ((100 : Nat) : ℚ)) = 0
    rw [ratFloor_eq_intFloor]
    rw [show ((50 : ℚ)) = (((50 : Int) : ℚ)) by norm_num,
      Rat.floor_intCast_div_natCast]
    decide
  have h := (c2_check_intervals_catchup catchupClock catchupTracker rfl
    (by decide)
    (by norm_num [catchupTracker])
    (by norm_num [catchupClock, catchupTracker])
    (by rw [hE]; decide)).1
  rw [hE, hLf] at h
  rw [h]
  decide

/-- Bounds of the month-finding loop: whatever the remaining-days value,
the resulting 1-based month index is at least 1 and at most
`max 1 (idx + ms.length)` (the fall-through case keeps the initial 1). -/
lemma find_month_fst_bounds (len_of : Month → Nat) :
    ∀ (ms : List Month) (idx rem : Nat), idx + ms.length < 2 ^ 32 →
      1 ≤ (CustomCalendar.find_month len_of ms idx rem).1
      ∧ (CustomCalendar.find_month len_of ms idx rem).1 ≤ max 1 (idx + ms.length) := by
  intro ms
  induction ms with
  | nil =>
    intro idx rem _
    simp [CustomCalendar.find_month]
  | cons m ms ih =>
    intro idx rem h
    unfold CustomCalendar.find_month
    by_cases hrem : rem < len_of m
    · rw [if_pos hrem]
      have hlen : (m :: ms).length = ms.length + 1 := rfl
      rw [hlen] at h
      have hidx : idx + 1 < 2 ^ 32 := by omega
      simp only [Nat.mod_eq_of_lt hidx]
      constructor
      · omega
      · have : idx + 1 ≤ idx + (m :: ms).length := by simp
        exact le_max_of_le_right (by simp)
    · rw [if_neg hrem]
      have hlen : (m :: ms).length = ms.length + 1 := rfl
      rw [hlen] at h ⊢
      have h' : (idx + 1) + ms.length < 2 ^ 32 := by omega
      have := ih (idx + 1) (rem - len_of m) h'
      have e : idx + 1 + ms.length = idx + (ms.length + 1) := by omega
      rw [e] at this
      exact this

/-- Whenever the normal-year length is non-zero, `get_date` completes and
its 1-based month component always lies inside the months list. -/
lemma get_date_from_some (c : CustomCalendar) (td : Int)
    (hdpy : c.days_per_year ≠ 0) (hm : c.months.length < 2 ^ 32) :
    ∃ y m d, CustomCalendar.get_date_from c td = some (y, m, d)
      ∧ 1 ≤ m ∧ m ≤ c.months.length := by
  have hdpyZ : ¬((c.days_per_year : Int) = 0) := by exact_mod_cast hdpy
  have hne : c.months ≠ [] := by
    intro h0
    exact hdpy (by simp [CustomCalendar.days_per_year, h0])
  have hpos : 0 < c.months.length := List.length_pos.mpr hne
  have key : ∀ (lenf : Month → Nat) (doy : Nat),
      1 ≤ (CustomCalendar.find_month lenf c.months 0 doy).1
      ∧ (CustomCalendar.find_month lenf c.months 0 doy).1 ≤ c.months.length := by
    intro lenf doy
    obtain ⟨ha, hb⟩ := find_month_fst_bounds lenf c.months 0 doy (by simpa using hm)
    rw [Nat.zero_add, Nat.max_eq_right hpos] at hb
    exact ⟨ha, hb⟩
  unfold CustomCalendar.get_date_from
  dsimp only
  rw [if_neg hdpyZ]
  exact ⟨_, _, _, rfl, (key _ _).1, (key _ _).2⟩

/-- For non-negative elapsed time and a non-empty weekday list of
realistic length, the weekday lookup succeeds. -/
lemma get_weekday_some (c : CustomCalendar) (elapsed : ℚ) (hE : 0 ≤ elapsed)
    (hw : c.weekdays.length ≠ 0) (hwlen : c.weekdays.length < 2 ^ 63) :
    ∃ w, c.get_weekday elapsed = some w := by
  unfold CustomCalendar.get_weekday
  rw [if_neg hw]
  have htd0 : 0 ≤ c.total_days elapsed := by
    unfold CustomCalendar.total_days
    rw [ratFloor_eq_intFloor]
    exact Int.floor_nonneg.mpr (div_nonneg hE (Nat.cast_nonneg _))
  have hbpos : (0 : Int) < (c.weekdays.length : Int) := by
    exact_mod_cast Nat.pos_of_ne_zero hw
  have h1 : 0 ≤ (c.total_days elapsed).tmod (c.weekdays.length : Int) :=
    Int.tmod_nonneg _ htd0
  have h2 : (c.total_days elapsed).tmod (c.weekdays.length : Int)
      < (c.weekdays.length : Int) := Int.tmod_lt_of_pos _ hbpos
  have hwlenI : (c.weekdays.length : Int) < 2 ^ 63 := by exact_mod_cast hwlen
  have hidx : usizeOfI64 ((c.total_days elapsed).tmod (c.weekdays.length : Int))
      < c.weekdays.length := by
    unfold usizeOfI64
    rw [Int.emod_eq_of_lt h1 (by omega)]
    omega
  exact ⟨c.weekdays.get ⟨_, hidx⟩, List.get?_eq_get hidx⟩

/-- C5 (amended): the source resolves `%B` by a direct, unguarded index
into `months`, but whenever the calendar has a non-zero normal-year length
(so `get_date` completes), the computed month index always lies in
`[1, months.len]`; hence for non-negative elapsed time the `%B` lookup
succeeds and `format_date` with a custom template returns a value instead
of panicking. -/
theorem c5_month_lookup_in_bounds (c : CustomCalendar) (elapsed : ℚ)
    (s : NaiveDateTime) (fmt : List Char)
    (hdpy : c.days_per_year ≠ 0)
    (hE : 0 ≤ elapsed)
    (hm : c.months.length < 2 ^ 32)
    (hw : c.weekdays.length ≠ 0)
    (hwlen : c.weekdays.length < 2 ^ 63) :
    ∃ (y : Int) (m d : Nat),
      c.get_date elapsed s = some (y, m, d)
      ∧ 1 ≤ m ∧ m ≤ c.months.length
      ∧ (c.months.get? (m - 1)).isSome = true
      ∧ (c.format_date elapsed s (some fmt)).isSome = true := by
  obtain ⟨y, m, d, hgd, hm1, hm2⟩ :=
    get_date_from_some c (c.total_days elapsed) hdpy hm
  have hgd' : c.get_date elapsed s = some (y, m, d) := hgd
  have hidx : m - 1 < c.months.length := by omega
  have hms : c.months.get? (m - 1) = some (c.months.get ⟨m - 1, hidx⟩) :=
    List.get?_eq_get hidx
  obtain ⟨w, hwk⟩ := get_weekday_some c elapsed hE hw hwlen
  refine ⟨y, m, d, hgd', hm1, hm2, by rw [hms]; rfl, ?_⟩
  unfold CustomCalendar.format_date
  rw [hgd']
  dsimp only
  rw [hwk]
  dsimp only
  rw [hms]
  rfl

/-- Witness for C5 on the fantasy calendar at elapsed 0 with a `%B`
template. -/
theorem c5_month_lookup_in_bounds_witness :
    (fantasyCalendar.format_date 0 startDT (some ("%B".data))).isSome = true := by
  obtain ⟨y, m, d, h1, h2, h3, h4, h5⟩ :=
    c5_month_lookup_in_bounds fantasyCalendar 0 startDT ("%B".data)
      (by decide) le_rfl (by decide) (by decide) (by decide)
  exact h5

/-- Counterexample for C5 as stated: formatting is not defensively
guarded — on a (directly constructible) calendar with an empty months
list, `format_date` with a `%B` template panics (the `i64` division by a
zero `days_per_year` inside `get_date`) instead of clamping or reporting. -/
theorem c5_format_date_panics_on_empty_months :
    CustomCalendar.format_date emptyMonthsCalendar 0 startDT
      (some ("%B".data)) = none := by
  rfl
